import Mathlib

/-!
# Verification of the PowerVR queue-submission and dependency-resolution engine

Shallow embedding of `src/imagination/vulkan/pvr_queue.c`: the barrier
propagation unit (`pvr_process_event_cmd_barrier`), the event state machine
(`pvr_process_event_cmd_set_or_reset`, `pvr_process_event_cmd_wait`), the job
dispatcher (`pvr_process_graphics_cmd*`, `pvr_process_compute_cmd`,
`pvr_process_transfer_cmds`, `pvr_process_occlusion_query_cmd`,
`pvr_process_cmd_buffer`) and the submission driver (`pvr_submit_null_job`,
`pvr_set_semaphore_payloads`, `pvr_set_fence_payload`, `pvr_update_syncobjs`,
`pvr_QueueSubmit`).

Sync primitives are modelled as natural-number ids allocated by a counter.
A `World` records which ids are live, every null-job submission (signal id
together with the list of wait ids fed to it) and every real job submission
(execution context, effective waits and signal ids).  Fallible device
operations (`vk_sync_create`, `null_job_submit`, the job submits) consult an
environment `Env : Nat -> Bool` indexed by the running count of fallible
operations, so error paths of the C code can be exercised faithfully.
-/

namespace PvrQueue

/-- Job types, mirroring `enum pvr_job_type`:
`PVR_JOB_TYPE_GEOM = 0`, `FRAG = 1`, `COMPUTE = 2`, `TRANSFER = 3`,
`OCCLUSION_QUERY = 4`, with `PVR_JOB_TYPE_MAX = 5`.  Pipeline stage bit `i`
corresponds to job type `i` (`PVR_PIPELINE_STAGE_*_BIT = BITFIELD_BIT(type)`),
which is how `u_foreach_bit (stage, mask)` indexes the per-job-type arrays. -/
abbrev Stage := Fin 5

def geomStage : Stage := 0
def fragStage : Stage := 1
def computeStage : Stage := 2
def transferStage : Stage := 3
def occlusionQueryStage : Stage := 4

/-- `PVR_PIPELINE_STAGE_GEOM_BIT` -/
def GEOM_BIT : Nat := 1
/-- `PVR_PIPELINE_STAGE_FRAG_BIT` -/
def FRAG_BIT : Nat := 2
/-- `PVR_PIPELINE_STAGE_COMPUTE_BIT` -/
def COMPUTE_BIT : Nat := 4
/-- `PVR_PIPELINE_STAGE_TRANSFER_BIT` -/
def TRANSFER_BIT : Nat := 8
/-- `PVR_PIPELINE_STAGE_OCCLUSION_QUERY_BIT` -/
def OCCLUSION_QUERY_BIT : Nat := 16

/-- A per-job-type array of optional sync objects
(`struct vk_sync *tab[PVR_JOB_TYPE_MAX]`); `none` is a NULL entry. -/
abbrev SyncTab := Stage → Option Nat

/-- A table with every entry NULL (`= { 0 }` / `= {}` initialisers). -/
def emptyTab : SyncTab := fun _ => none

/-- `u_foreach_bit (stage, mask)`: the set bit indices of `mask` in
ascending order, restricted to the five job-type bits (the source asserts
`!(mask & ~PVR_PIPELINE_STAGE_ALL_BITS)`). -/
def stagesOf (mask : Nat) : List Stage :=
  (List.finRange 5).filter (fun s => mask.testBit s.val)

/-- Execution contexts owned by a `pvr_queue`: `gfx_ctx`, `compute_ctx`,
`query_ctx`, `transfer_ctx`. -/
inductive Ctx
  | gfx
  | compute
  | query
  | transfer
deriving DecidableEq

/-- Record of one real job handed to an execution context.  `barriers` are
the barrier sync objects passed to the submit call, `waits` the external
semaphore waits filtered to the job's stages, `signals` the completion sync
objects the job will signal (geometry and/or fragment for render jobs),
`runFrag` the render job's `run_frag` flag. -/
structure JobRec where
  ctx : Ctx
  barriers : List Nat
  waits : List Nat
  signals : List Nat
  runFrag : Bool
deriving DecidableEq

/-- `PVR_EVENT_STATE_SET_BY_DEVICE` / `PVR_EVENT_STATE_RESET_BY_DEVICE`. -/
inductive EventState
  | setByDevice
  | resetByDevice
deriving DecidableEq

/-- A `struct pvr_event`: its current sync object and logical state. -/
structure EventObj where
  sync : Option Nat
  state : EventState
deriving DecidableEq

/-- The device-visible history.  `live` is the set of sync objects created
and not yet destroyed; `nullJobs` records every `null_job_submit` call as
(signalled sync, waited syncs); `jobs` records every real job submission in
submission order; `events` is the `pvr_event` pool addressed by index. -/
structure World where
  opCount : Nat
  nextId : Nat
  live : Finset Nat
  nullJobs : List (Nat × List Nat)
  jobs : List JobRec
  events : List EventObj
deriving DecidableEq

/-- Outcome of the `n`-th fallible device operation. -/
abbrev Env := Nat → Bool

/-- The environment in which no device operation fails. -/
def allOk : Env := fun _ => true

/-- Error outcomes.  `outOfMemory` stands for the `VK_ERROR_*` code of a
failed `vk_sync_create`, `deviceLost` for a failed submit ioctl, and
`assertionFailed` models a tripped `assert()` (a debug abort).
`unsupportedSyncFeature` is the error class named by the specification's
error taxonomy for timeline semaphores; the code never produces it, and it
is included only so that statements about it can be written. -/
inductive SubmitErr
  | outOfMemory
  | deviceLost
  | assertionFailed
  | unsupportedSyncFeature
deriving DecidableEq

/-- `vk_sync_create`: allocates a fresh sync object on success. -/
def syncCreate (env : Env) (w : World) : Except SubmitErr Nat × World :=
  if env w.opCount then
    (.ok w.nextId,
      { w with
        opCount := w.opCount + 1
        nextId := w.nextId + 1
        live := insert w.nextId w.live })
  else
    (.error .outOfMemory, { w with opCount := w.opCount + 1 })

/-- `vk_sync_destroy`. -/
def syncDestroy (s : Nat) (w : World) : World :=
  { w with live := w.live.erase s }

/-- `if (x) vk_sync_destroy(device, x);` -/
def destroyIfSome (o : Option Nat) (w : World) : World :=
  match o with
  | some s => syncDestroy s w
  | none => w

/-- `device->ws->ops->null_job_submit(ws, waits, count, signal)`: performs
no device work, signals `signal` once every wait is satisfied.  The call is
recorded. -/
def nullJobSubmit (env : Env) (waits : List Nat) (signal : Nat) (w : World) :
    Except SubmitErr Unit × World :=
  if env w.opCount then
    (.ok (), { w with opCount := w.opCount + 1, nullJobs := (signal, waits) :: w.nullJobs })
  else
    (.error .deviceLost, { w with opCount := w.opCount + 1 })

/-- A real job submit (`pvr_render_job_submit`, `pvr_compute_job_submit`,
`pvr_transfer_job_submit`).  The call is recorded. -/
def jobSubmit (env : Env) (j : JobRec) (w : World) : Except SubmitErr Unit × World :=
  if env w.opCount then
    (.ok (), { w with opCount := w.opCount + 1, jobs := w.jobs ++ [j] })
  else
    (.error .deviceLost, { w with opCount := w.opCount + 1 })

/-- Modelled from the spec: the external-wait filtering performed inside the
job-submit collaborators (`pvr_job_compute.c` etc., not part of the sources):
"the effective wait-set passed to the execution context is `external_waits`
filtered to T" (section 4.3).  `waits` pairs each semaphore sync with its
already-converted PVR stage mask; the same test `stage_flags[j] & (1U << i)`
appears in `pvr_submit_null_job`. -/
def filterWaits (waits : List (Nat × Nat)) (s : Stage) : List Nat :=
  waits.filterMap (fun p => if p.2.testBit s.val then some p.1 else none)

/-! ## Barrier propagation unit: `pvr_process_event_cmd_barrier` -/

/-- Lines 562-576: resolution of the prior-completion sync object for one
source stage.  `syncobj = per_cmd_buffer_syncobjs[stage]; if (!in_render_pass
& !syncobj) { per_submit, else queue, else previous_queue }`. -/
def srcSyncobjFor (inRenderPass : Bool) (pcb ps qs pqs : SyncTab) (s : Stage) :
    Option Nat :=
  let syncobj := pcb s
  let syncobj :=
    if !inRenderPass && syncobj.isNone then
      if (ps s).isSome then ps s
      else if (qs s).isSome then qs s
      else if (pqs s).isSome then pqs s
      else syncobj
    else syncobj
  syncobj

/-- Lines 561-579: `src_syncobjs` collected over the bits of `src_mask`,
skipping stages that resolve to NULL. -/
def collectSrcSyncobjs (inRenderPass : Bool) (pcb ps qs pqs : SyncTab)
    (srcMask : Nat) : List Nat :=
  (stagesOf srcMask).filterMap (srcSyncobjFor inRenderPass pcb ps qs pqs)

/-- The cleanup loops at `err_destroy_new_barriers` / `err_destroy_completions`:
`u_foreach_bit (stage, dst_mask) if (tab[stage]) vk_sync_destroy(tab[stage])`. -/
def destroyTabStages (stages : List Stage) (t : SyncTab) (w : World) : World :=
  stages.foldl (fun w s => destroyIfSome (t s) w) w

/-- Lines 585-607: for each destination stage create a completion sync and
feed `src_syncobjs` into it through a null job.  On failure, the completions
accumulated so far are destroyed (`err_destroy_completions`) and the error is
returned (the outer `result` holds it here). -/
def barrierCompletionsLoop (env : Env) (srcList : List Nat)
    (cleanupStages : List Stage) :
    List Stage → SyncTab → World → Except SubmitErr SyncTab × World
  | [], comps, w => (.ok comps, w)
  | s :: rest, comps, w =>
    match syncCreate env w with
    | (.error e, w1) => (.error e, destroyTabStages cleanupStages comps w1)
    | (.ok c, w1) =>
      match nullJobSubmit env srcList c w1 with
      | (.error e, w2) =>
        (.error e, destroyTabStages cleanupStages comps (syncDestroy c w2))
      | (.ok _, w2) =>
        barrierCompletionsLoop env srcList cleanupStages rest
          (Function.update comps s (some c)) w2

/-- Lines 609-659: for each destination stage create the new pending barrier,
fed by the new completion merged with the previously pending barrier for that
stage, if any.  On failure, the new barriers and then all completions are
destroyed (`err_destroy_new_barriers` falling through to
`err_destroy_completions`). -/
def barrierNewBarriersLoop (env : Env) (barriers comps : SyncTab)
    (cleanupStages : List Stage) :
    List Stage → SyncTab → World → Except SubmitErr SyncTab × World
  | [], nbs, w => (.ok nbs, w)
  | s :: rest, nbs, w =>
    let barrierSrcs := (comps s).toList ++ (barriers s).toList
    match syncCreate env w with
    | (.error e, w1) =>
      (.error e,
        destroyTabStages cleanupStages comps (destroyTabStages cleanupStages nbs w1))
    | (.ok b, w1) =>
      match nullJobSubmit env barrierSrcs b w1 with
      | (.error e, w2) =>
        (.error e,
          destroyTabStages cleanupStages comps
            (destroyTabStages cleanupStages nbs (syncDestroy b w2)))
      | (.ok _, w2) =>
        barrierNewBarriersLoop env barriers comps cleanupStages rest
          (Function.update nbs s (some b)) w2

/-- Lines 661-671 (also 863-873 in the wait path): commit the new completions
and pending barriers, destroying the replaced entries. -/
def commitLoop :
    List Stage → SyncTab → SyncTab → SyncTab → SyncTab → World →
    SyncTab × SyncTab × World
  | [], bs, pcb, _, _, w => (bs, pcb, w)
  | s :: rest, bs, pcb, comps, nbs, w =>
    let w1 := destroyIfSome (pcb s) w
    let pcb1 := Function.update pcb s (comps s)
    let w2 := destroyIfSome (bs s) w1
    let bs1 := Function.update bs s (nbs s)
    commitLoop rest bs1 pcb1 comps nbs w2

/-- `pvr_process_event_cmd_barrier` (lines 531-688).  Returns the updated
`barriers` (pending-barrier) and `per_cmd_buffer_syncobjs` (completion)
tables.

Note one faithful oddity of the source: the second loop declares an inner
`VkResult result` (line 613) that shadows the outer one, so when that loop
fails, the `return result` after the cleanup labels returns the OUTER
result, which at that point holds `VK_SUCCESS` from the first loop -- the
function reports success while leaving both tables untouched. -/
def processEventCmdBarrier (env : Env) (srcMask dstMask : Nat)
    (inRenderPass : Bool) (bs pcb ps qs pqs : SyncTab) (w : World) :
    Except SubmitErr (SyncTab × SyncTab) × World :=
  let srcList := collectSrcSyncobjs inRenderPass pcb ps qs pqs srcMask
  if srcList.isEmpty then
    (.ok (bs, pcb), w)
  else
    match barrierCompletionsLoop env srcList (stagesOf dstMask)
        (stagesOf dstMask) emptyTab w with
    | (.error e, w1) => (.error e, w1)
    | (.ok comps, w1) =>
      match barrierNewBarriersLoop env bs comps (stagesOf dstMask)
          (stagesOf dstMask) emptyTab w1 with
      | (.error _, w2) => (.ok (bs, pcb), w2)
      | (.ok nbs, w2) =>
        let r := commitLoop (stagesOf dstMask) bs pcb comps nbs w2
        (.ok (r.1, r.2.1), r.2.2)

/-! ## Event state machine: set/reset and wait -/

/-- `pvr_process_event_cmd_set_or_reset` (lines 690-756): gather the
per-command-buffer completions of the stages in `wait_for_stage_mask`, merge
them into a fresh sync through a null job, and install it as the event's
sync, with state SET_BY_DEVICE or RESET_BY_DEVICE. -/
def processEventCmdSetOrReset (env : Env) (isSet : Bool) (eventIdx : Nat)
    (waitForStageMask : Nat) (pcb : SyncTab) (w : World) :
    Except SubmitErr Unit × World :=
  let srcs := (stagesOf waitForStageMask).filterMap pcb
  match syncCreate env w with
  | (.error e, w1) => (.error e, w1)
  | (.ok s, w1) =>
    match nullJobSubmit env srcs s w1 with
    | (.error e, w2) => (.error e, syncDestroy s w2)
    | (.ok _, w2) =>
      let ev := w2.events.getD eventIdx ⟨none, .resetByDevice⟩
      let w3 := destroyIfSome ev.sync w2
      let st := if isSet then EventState.setByDevice else EventState.resetByDevice
      (.ok (), { w3 with events := w3.events.set eventIdx ⟨some s, st⟩ })

/-- The event sync dereference `sub_cmd->wait.events[i]->sync`. -/
def eventSyncOf (w : World) (eventIdx : Nat) : Option Nat :=
  (w.events.getD eventIdx ⟨none, .resetByDevice⟩).sync

/-- Lines 798-804: the wait-set built for one destination stage of a
wait-events sub-command: the pending barrier for that stage, if any, plus
the sync of every event the source's test selects.  The test is transcribed
exactly: `wait_at_stage_masks[i] & stage`, where `stage` is the BIT INDEX
produced by `u_foreach_bit`, not a bit mask.  (An event whose sync is NULL
would be pushed as a NULL pointer in C; it is skipped here.) -/
def waitEventSrcs (w : World) (bs : SyncTab) (events : List Nat)
    (waitAtStageMasks : List Nat) (s : Stage) : List Nat :=
  (bs s).toList ++
    (events.zip waitAtStageMasks).filterMap (fun p =>
      if p.2 &&& s.val ≠ 0 then eventSyncOf w p.1 else none)

/-- Lines 792-861: per destination stage, submit a null job over the stage's
wait-set to obtain a new completion, then a second null job fed by that
completion alone to obtain the new pending barrier.  The error paths destroy
only the current iteration's syncs before returning. -/
def waitStageLoop (env : Env) (events : List Nat) (waitAtStageMasks : List Nat)
    (bs : SyncTab) :
    List Stage → SyncTab → SyncTab → World →
    Except SubmitErr (SyncTab × SyncTab) × World
  | [], comps, nbs, w => (.ok (comps, nbs), w)
  | s :: rest, comps, nbs, w =>
    let srcs := waitEventSrcs w bs events waitAtStageMasks s
    match syncCreate env w with
    | (.error e, w1) => (.error e, w1)
    | (.ok completion, w1) =>
      match nullJobSubmit env srcs completion w1 with
      | (.error e, w2) => (.error e, syncDestroy completion w2)
      | (.ok _, w2) =>
        match syncCreate env w2 with
        | (.error e, w3) => (.error e, syncDestroy completion w3)
        | (.ok barrier, w3) =>
          match nullJobSubmit env [completion] barrier w3 with
          | (.error e, w4) =>
            (.error e, syncDestroy completion (syncDestroy barrier w4))
          | (.ok _, w4) =>
            waitStageLoop env events waitAtStageMasks bs rest
              (Function.update comps s (some completion))
              (Function.update nbs s (some barrier)) w4

/-- `pvr_process_event_cmd_wait` (lines 774-878).  `dst_mask` is the union of
the events' `wait_at_stage_masks`; on success the completions and barriers
are committed exactly as in the barrier path. -/
def processEventCmdWait (env : Env) (events : List Nat)
    (waitAtStageMasks : List Nat) (bs pcb : SyncTab) (w : World) :
    Except SubmitErr (SyncTab × SyncTab) × World :=
  let dstMask := waitAtStageMasks.foldl (· ||| ·) 0
  match waitStageLoop env events waitAtStageMasks bs (stagesOf dstMask)
      emptyTab emptyTab w with
  | (.error e, w1) => (.error e, w1)
  | (.ok (comps, nbs), w1) =>
    let r := commitLoop (stagesOf dstMask) bs pcb comps nbs w1
    (.ok (r.1, r.2.1), r.2.2)

/-! ## Job dispatcher -/

/-- `pvr_process_compute_cmd` (lines 399-439): create a completion sync,
submit the compute job with the pending compute barrier and the external
waits, and replace the per-command-buffer compute completion. -/
def processComputeCmd (env : Env) (barrier : Option Nat)
    (waits : List (Nat × Nat)) (pcb : SyncTab) (w : World) :
    Except SubmitErr SyncTab × World :=
  match syncCreate env w with
  | (.error e, w1) => (.error e, w1)
  | (.ok s, w1) =>
    let jr : JobRec :=
      { ctx := .compute, barriers := barrier.toList
        waits := filterWaits waits computeStage, signals := [s], runFrag := true }
    match jobSubmit env jr w1 with
    | (.error e, w2) => (.error e, syncDestroy s w2)
    | (.ok _, w2) =>
      (.ok (Function.update pcb computeStage (some s)),
        destroyIfSome (pcb computeStage) w2)

/-- `pvr_process_transfer_cmds` (lines 441-482). -/
def processTransferCmd (env : Env) (barrier : Option Nat)
    (waits : List (Nat × Nat)) (pcb : SyncTab) (w : World) :
    Except SubmitErr SyncTab × World :=
  match syncCreate env w with
  | (.error e, w1) => (.error e, w1)
  | (.ok s, w1) =>
    let jr : JobRec :=
      { ctx := .transfer, barriers := barrier.toList
        waits := filterWaits waits transferStage, signals := [s], runFrag := true }
    match jobSubmit env jr w1 with
    | (.error e, w2) => (.error e, syncDestroy s w2)
    | (.ok _, w2) =>
      (.ok (Function.update pcb transferStage (some s)),
        destroyIfSome (pcb transferStage) w2)

/-- `pvr_process_occlusion_query_cmd` (lines 484-529): a compute job on the
query context. -/
def processOcclusionQueryCmd (env : Env) (barrier : Option Nat)
    (waits : List (Nat × Nat)) (pcb : SyncTab) (w : World) :
    Except SubmitErr SyncTab × World :=
  match syncCreate env w with
  | (.error e, w1) => (.error e, w1)
  | (.ok s, w1) =>
    let jr : JobRec :=
      { ctx := .query, barriers := barrier.toList
        waits := filterWaits waits occlusionQueryStage, signals := [s], runFrag := true }
    match jobSubmit env jr w1 with
    | (.error e, w2) => (.error e, syncDestroy s w2)
    | (.ok _, w2) =>
      (.ok (Function.update pcb occlusionQueryStage (some s)),
        destroyIfSome (pcb occlusionQueryStage) w2)

/-- `vk_sync_create` guarded by `if (barrier) { ... }`. -/
def syncCreateIf (env : Env) (cond : Bool) (w : World) :
    Except SubmitErr (Option Nat) × World :=
  if cond then
    match syncCreate env w with
    | (.ok s, w1) => (.ok (some s), w1)
    | (.error e, w1) => (.error e, w1)
  else (.ok none, w)

/-- `pvr_process_graphics_cmd_part` (lines 208-289).  `writeGeom` /
`writeFrag` model whether the `geom_completion` / `frag_completion` out
pointers are non-NULL; the leading condition models the two asserts
`assert(geom_barrier || !geom_completion)` and the fragment counterpart.  A
geometry (fragment) completion sync is created exactly when the geometry
(fragment) barrier is present, the render job is submitted with both
barriers, the shared external waits and both signals, and on success each
created sync replaces the corresponding completion entry.  (The control
stream address and `geometry_terminate` bookkeeping of the source carry no
synchronization content and are omitted.) -/
def processGraphicsCmdPart (env : Env) (geomBarrier fragBarrier : Option Nat)
    (writeGeom writeFrag : Bool) (waits : List (Nat × Nat)) (runFrag : Bool)
    (pcb : SyncTab) (w : World) : Except SubmitErr SyncTab × World :=
  if (writeGeom && geomBarrier.isNone) || (writeFrag && fragBarrier.isNone) then
    (.error .assertionFailed, w)
  else
    match syncCreateIf env geomBarrier.isSome w with
    | (.error e, w1) => (.error e, w1)
    | (.ok geomSync, w1) =>
      match syncCreateIf env fragBarrier.isSome w1 with
      | (.error e, w2) => (.error e, destroyIfSome geomSync w2)
      | (.ok fragSync, w2) =>
        let jr : JobRec :=
          { ctx := .gfx
            barriers := geomBarrier.toList ++ fragBarrier.toList
            waits := filterWaits waits geomStage ++ filterWaits waits fragStage
            signals := geomSync.toList ++ fragSync.toList
            runFrag := runFrag }
        match jobSubmit env jr w2 with
        | (.error e, w3) =>
          (.error e, destroyIfSome geomSync (destroyIfSome fragSync w3))
        | (.ok _, w3) =>
          let pw1 :=
            match geomSync, writeGeom with
            | some gs, true =>
              (Function.update pcb geomStage (some gs),
                destroyIfSome (pcb geomStage) w3)
            | _, _ => (pcb, w3)
          let pw2 :=
            match fragSync, writeFrag with
            | some fs, true =>
              (Function.update pw1.1 fragStage (some fs),
                destroyIfSome (pw1.1 fragStage) pw1.2)
            | _, _ => pw1
          (.ok pw2.1, pw2.2)

/-- `pvr_process_split_graphics_cmd` (lines 291-350): first a geometry-only
part with `run_frag = false` receiving only the geometry barrier and
replacing only the geometry completion, then a terminating part receiving
only the fragment barrier and replacing only the fragment completion. -/
def processSplitGraphicsCmd (env : Env) (geomBarrier fragBarrier : Option Nat)
    (waits : List (Nat × Nat)) (runFrag : Bool) (pcb : SyncTab) (w : World) :
    Except SubmitErr SyncTab × World :=
  match processGraphicsCmdPart env geomBarrier none true false waits false pcb w with
  | (.error e, w1) => (.error e, w1)
  | (.ok pcb1, w1) =>
    processGraphicsCmdPart env none fragBarrier false true waits runFrag pcb1 w1

/-- `pvr_process_graphics_cmd` (lines 352-397). -/
def processGraphicsCmd (env : Env) (requiresSplit : Bool)
    (geomBarrier fragBarrier : Option Nat) (waits : List (Nat × Nat))
    (runFrag : Bool) (pcb : SyncTab) (w : World) :
    Except SubmitErr SyncTab × World :=
  if requiresSplit then
    processSplitGraphicsCmd env geomBarrier fragBarrier waits runFrag pcb w
  else
    processGraphicsCmdPart env geomBarrier fragBarrier true true waits runFrag pcb w

/-! ## Command-buffer processing: `pvr_process_cmd_buffer` -/

/-- An event sub-command (`struct pvr_sub_cmd_event`). -/
inductive EventCmd
  | setEvent (eventIdx : Nat) (waitForStageMask : Nat)
  | resetEvent (eventIdx : Nat) (waitForStageMask : Nat)
  | waitEvents (events : List Nat) (waitAtStageMasks : List Nat)
  | barrier (waitForStageMask waitAtStageMask : Nat) (inRenderPass : Bool)

/-- A recorded sub-command (`struct pvr_sub_cmd`). -/
inductive SubCmd
  | graphics (hasOcclusionQuery requiresSplit runFrag : Bool)
  | compute
  | transfer (serializeWithFrag : Bool)
  | occlusionQuery
  | event (e : EventCmd)

/-- `pvr_process_event_cmd` (lines 880-914). -/
def processEventCmd (env : Env) (ps qs pqs : SyncTab) (e : EventCmd)
    (bs pcb : SyncTab) (w : World) :
    Except SubmitErr (SyncTab × SyncTab) × World :=
  match e with
  | .setEvent idx mask =>
    match processEventCmdSetOrReset env true idx mask pcb w with
    | (.error e, w1) => (.error e, w1)
    | (.ok _, w1) => (.ok (bs, pcb), w1)
  | .resetEvent idx mask =>
    match processEventCmdSetOrReset env false idx mask pcb w with
    | (.error e, w1) => (.error e, w1)
    | (.ok _, w1) => (.ok (bs, pcb), w1)
  | .waitEvents evs masks => processEventCmdWait env evs masks bs pcb w
  | .barrier srcMask dstMask irp =>
    processEventCmdBarrier env srcMask dstMask irp bs pcb ps qs pqs w

/-- One iteration of the sub-command dispatch switch in
`pvr_process_cmd_buffer` (lines 1044-1176), threading the queue's pending
barriers `bs` and the per-command-buffer completions `pcb`. -/
def processSubCmd (env : Env) (waits : List (Nat × Nat)) (ps qs pqs : SyncTab) :
    SubCmd → SyncTab × SyncTab → World →
    Except SubmitErr (SyncTab × SyncTab) × World
  | .graphics hasOcc split runFrag, (bs, pcb), w =>
    let afterBarrier :=
      if hasOcc then
        processEventCmdBarrier env OCCLUSION_QUERY_BIT FRAG_BIT false
          bs pcb ps qs pqs w
      else (.ok (bs, pcb), w)
    match afterBarrier with
    | (.error e, w1) => (.error e, w1)
    | (.ok (bs1, pcb1), w1) =>
      match processGraphicsCmd env split (bs1 geomStage) (bs1 fragStage)
          waits runFrag pcb1 w1 with
      | (.error e, w2) => (.error e, w2)
      | (.ok pcb2, w2) => (.ok (bs1, pcb2), w2)
  | .compute, (bs, pcb), w =>
    match processComputeCmd env (bs computeStage) waits pcb w with
    | (.error e, w1) => (.error e, w1)
    | (.ok pcb1, w1) => (.ok (bs, pcb1), w1)
  | .transfer serialize, (bs, pcb), w =>
    if serialize then
      match processEventCmdBarrier env FRAG_BIT TRANSFER_BIT false
          bs pcb ps qs pqs w with
      | (.error e, w1) => (.error e, w1)
      | (.ok (bs1, pcb1), w1) =>
        match processTransferCmd env (bs1 transferStage) waits pcb1 w1 with
        | (.error e, w2) => (.error e, w2)
        | (.ok pcb2, w2) =>
          processEventCmdBarrier env TRANSFER_BIT FRAG_BIT false
            bs1 pcb2 ps qs pqs w2
    else
      match processTransferCmd env (bs transferStage) waits pcb w with
      | (.error e, w1) => (.error e, w1)
      | (.ok pcb1, w1) => (.ok (bs, pcb1), w1)
  | .occlusionQuery, (bs, pcb), w =>
    match processOcclusionQueryCmd env (bs occlusionQueryStage) waits pcb w with
    | (.error e, w1) => (.error e, w1)
    | (.ok pcb1, w1) => (.ok (bs, pcb1), w1)
  | .event e, (bs, pcb), w => processEventCmd env ps qs pqs e bs pcb w

/-- The `list_for_each_entry_safe` loop of `pvr_process_cmd_buffer`:
sub-commands processed strictly in recorded order, stopping at the first
error. -/
def processSubCmds (env : Env) (waits : List (Nat × Nat)) (ps qs pqs : SyncTab) :
    List SubCmd → SyncTab × SyncTab → World →
    Except SubmitErr (SyncTab × SyncTab) × World
  | [], st, w => (.ok st, w)
  | c :: rest, st, w =>
    match processSubCmd env waits ps qs pqs c st w with
    | (.error e, w1) => (.error e, w1)
    | (.ok st1, w1) => processSubCmds env waits ps qs pqs rest st1 w1

/-- `pvr_update_syncobjs` (lines 1008-1020): newer entries overwrite,
destroying the replaced sync. -/
def updateSyncobjs (src dst : SyncTab) (w : World) : SyncTab × World :=
  (List.finRange 5).foldl
    (fun dw i =>
      match src i with
      | some x => (Function.update dw.1 i (some x), destroyIfSome (dw.1 i) dw.2)
      | none => dw)
    (dst, w)

/-- `pvr_process_cmd_buffer` (lines 1022-1187): process the sub-commands with
a fresh per-command-buffer completion table, then merge it into the
per-submission table.  Returns the updated pending barriers and per-submission
completions. -/
def processCmdBuffer (env : Env) (subCmds : List SubCmd) (bs : SyncTab)
    (waits : List (Nat × Nat)) (ps qs pqs : SyncTab) (w : World) :
    Except SubmitErr (SyncTab × SyncTab) × World :=
  match processSubCmds env waits ps qs pqs subCmds (bs, emptyTab) w with
  | (.error e, w1) => (.error e, w1)
  | (.ok (bs1, pcb1), w1) =>
    let r := updateSyncobjs pcb1 ps w1
    (.ok (bs1, r.1), r.2)

/-! ## Submission driver: `pvr_QueueSubmit` -/

/-- `pvr_submit_null_job` (lines 1189-1241): for each job type, gather the
external waits whose stage mask includes that type; if there are none the
completion entry is left absent, otherwise a completion sync is created and
signalled by a null job over those waits.  On failure every completion set
so far is destroyed and cleared. -/
def submitNullJobLoop (env : Env) (waits : List (Nat × Nat)) :
    List Stage → SyncTab → World → Except SubmitErr SyncTab × World
  | [], tab, w => (.ok tab, w)
  | i :: rest, tab, w =>
    let perJobWaits := filterWaits waits i
    if perJobWaits.isEmpty then
      submitNullJobLoop env waits rest tab w
    else
      match syncCreate env w with
      | (.error e, w1) => (.error e, destroyTabStages (List.finRange 5) tab w1)
      | (.ok c, w1) =>
        let tab1 := Function.update tab i (some c)
        match nullJobSubmit env perJobWaits c w1 with
        | (.error e, w2) => (.error e, destroyTabStages (List.finRange 5) tab1 w2)
        | (.ok _, w2) => submitNullJobLoop env waits rest tab1 w2

/-- `pvr_submit_null_job` entry point over all `PVR_JOB_TYPE_MAX` types. -/
def submitNullJob (env : Env) (waits : List (Nat × Nat)) (w : World) :
    Except SubmitErr SyncTab × World :=
  submitNullJobLoop env waits (List.finRange 5) emptyTab w

/-- The sync type behind a wait semaphore, as far as lines 1260-1274
distinguish them: a `vk_sync_dummy` no-op sync, a plain binary sync, or a
sync with `VK_SYNC_IS_TIMELINE` set. -/
inductive SyncKind
  | dummy
  | binary
  | timeline
deriving DecidableEq

/-- An entry of `pSubmits[i].pWaitSemaphores` / `pWaitDstStageMask`, with the
stage mask already through `pvr_stage_mask_dst` (that conversion lives
outside these sources; masks here are in job-type bit encoding). -/
structure WaitSem where
  kind : SyncKind
  sync : Nat
  dstStageMask : Nat
deriving DecidableEq

/-- The wait-semaphore translation loop of `pvr_QueueSubmit` (lines
1260-1274): dummy syncs are skipped; a timeline sync trips
`assert(!(sync->flags & VK_SYNC_IS_TIMELINE))` -- an abort, not an error
return -- before any further handling. -/
def translateWaits : List WaitSem → Except SubmitErr (List (Nat × Nat))
  | [] => .ok []
  | sem :: rest =>
    if sem.kind = .dummy then translateWaits rest
    else if sem.kind = .timeline then .error .assertionFailed
    else
      match translateWaits rest with
      | .error e => .error e
      | .ok tl => .ok ((sem.sync, sem.dstStageMask) :: tl)

/-- The live entries of a completion table, in job-type order.  The source
passes the raw five-pointer array to `null_job_submit`
(`pvr_set_semaphore_payloads`, `pvr_set_fence_payload`); the winsys is not
part of the sources, and per the specification the merge waits on the
table's present completions, so NULL entries drop out here. -/
def tabSomes (tab : SyncTab) : List Nat :=
  (List.finRange 5).filterMap tab

/-- `pvr_set_semaphore_payloads` (lines 916-972): merge the per-submission
completions into one sync and hand it to the signal semaphores.  The
sync-file export/import plumbing carries no dependency content and is
elided; the merged sync handle is destroyed at the end as in the source. -/
def setSemaphorePayloads (env : Env) (tab : SyncTab) (w : World) :
    Except SubmitErr Unit × World :=
  match syncCreate env w with
  | (.error e, w1) => (.error e, w1)
  | (.ok s, w1) =>
    match nullJobSubmit env (tabSomes tab) s w1 with
    | (.error e, w2) => (.error e, syncDestroy s w2)
    | (.ok _, w2) => (.ok (), syncDestroy s w2)

/-- `pvr_set_fence_payload` (lines 974-1006): merge the completion table into
one sync through a null job, move its payload into the fence
(`vk_sync_move`), and destroy the now-empty source handle.  Returns the id
whose signal the fence now observes. -/
def setFencePayload (env : Env) (tab : SyncTab) (w : World) :
    Except SubmitErr Nat × World :=
  match syncCreate env w with
  | (.error e, w1) => (.error e, w1)
  | (.ok s, w1) =>
    match nullJobSubmit env (tabSomes tab) s w1 with
    | (.error e, w2) => (.error e, syncDestroy s w2)
    | (.ok _, w2) => (.ok s, syncDestroy s w2)

/-- One entry of `pSubmits` as far as the engine reads it. -/
structure SubmitDesc where
  waitSems : List WaitSem
  cmdBuffers : List (List SubCmd)
  signalCount : Nat

/-- The cmd-buffer loop at lines 1277-1290. -/
def processCmdBuffers (env : Env) (waits : List (Nat × Nat)) (qs pqs : SyncTab) :
    List (List SubCmd) → SyncTab → SyncTab → World →
    Except SubmitErr (SyncTab × SyncTab) × World
  | [], bs, ps, w => (.ok (bs, ps), w)
  | cb :: rest, bs, ps, w =>
    match processCmdBuffer env cb bs waits ps qs pqs w with
    | (.error e, w1) => (.error e, w1)
    | (.ok (bs1, ps1), w1) => processCmdBuffers env waits qs pqs rest bs1 ps1 w1

/-- The per-submission loop of `pvr_QueueSubmit` (lines 1253-1313), threading
the queue's pending barriers `bs` and the call-level completion table `qs`
(`completion_syncobjs`); `pqs` is `queue->completion` from before this call. -/
def processSubmits (env : Env) (pqs : SyncTab) :
    List SubmitDesc → SyncTab → SyncTab → World →
    Except SubmitErr (SyncTab × SyncTab) × World
  | [], bs, qs, w => (.ok (bs, qs), w)
  | d :: rest, bs, qs, w =>
    match translateWaits d.waitSems with
    | .error e => (.error e, w)
    | .ok waits =>
      let body :=
        if d.cmdBuffers.isEmpty then
          match submitNullJob env waits w with
          | (.error e, w1) => (.error e, w1)
          | (.ok ps, w1) => (.ok (bs, ps), w1)
        else processCmdBuffers env waits qs pqs d.cmdBuffers bs emptyTab w
      match body with
      | (.error e, w1) => (.error e, w1)
      | (.ok (bs1, ps), w1) =>
        let signalled :=
          if 0 < d.signalCount then setSemaphorePayloads env ps w1
          else (.ok (), w1)
        match signalled with
        | (.error e, w2) => (.error e, w2)
        | (.ok _, w2) =>
          let r := updateSyncobjs ps qs w2
          processSubmits env pqs rest bs1 r.1 r.2

/-- `pvr_QueueSubmit` (lines 1243-1324).  `bs` is `queue->job_dependancy`,
`qs0` is `queue->completion`.  Returns the updated pending barriers, the
updated queue completion table, and the sync id moved into the fence when a
fence was supplied. -/
def pvrQueueSubmit (env : Env) (submits : List SubmitDesc) (hasFence : Bool)
    (bs qs0 : SyncTab) (w : World) :
    Except SubmitErr (SyncTab × SyncTab × Option Nat) × World :=
  match processSubmits env qs0 submits bs emptyTab w with
  | (.error e, w1) => (.error e, w1)
  | (.ok (bs1, acc), w1) =>
    let fenced : Except SubmitErr (Option Nat) × World :=
      if hasFence then
        match setFencePayload env acc w1 with
        | (.error e, w2) => (.error e, w2)
        | (.ok f, w2) => (.ok (some f), w2)
      else (.ok none, w1)
    match fenced with
    | (.error e, w2) => (.error e, w2)
    | (.ok fence, w2) =>
      let r := updateSyncobjs acc qs0 w2
      (.ok (bs1, r.1, fence), r.2)

/-! ## Completion coverage

Modelled from the spec: what it means for a sync primitive's signal to
guarantee a job's completion.  A null job signals once all of its waits are
satisfied (section 2, Null-Submission Service); a job's completion sync
signals when the job is done, the job runs only after its barrier and
external waits, and each execution context runs its own jobs in FIFO order
(section 3, "FIFO within a context"; glossary, Execution context). -/

/-- `Covers w s j`: when sync `s` of history `w` signals, job number `j`
(position in `w.jobs`) is guaranteed to have completed. -/
inductive Covers (w : World) : Nat → Nat → Prop
  | signal (s j : Nat) (r : JobRec) :
      w.jobs.get? j = some r → s ∈ r.signals → Covers w s j
  | fifo (s j j' : Nat) (r r' : JobRec) :
      w.jobs.get? j = some r → s ∈ r.signals →
      w.jobs.get? j' = some r' → r'.ctx = r.ctx → j' < j → Covers w s j'
  | jobWait (s j t j' : Nat) (r : JobRec) :
      w.jobs.get? j = some r → s ∈ r.signals →
      t ∈ r.barriers ++ r.waits → Covers w t j' → Covers w s j'
  | nullJob (s : Nat) (waits : List Nat) (t j : Nat) :
      (s, waits) ∈ w.nullJobs → t ∈ waits → Covers w t j → Covers w s j

/-- A job's effective wait-set transitively includes job `j`'s completion:
some sync the job waits on covers `j`. -/
def waitSetCovers (w : World) (r : JobRec) (j : Nat) : Prop :=
  ∃ t, t ∈ r.barriers ++ r.waits ∧ Covers w t j

/-- The precedence chain exactly as the specification words it (section
4.1): the per-command-buffer completion if present; otherwise, only when not
in a render pass, the per-submission completion, else the per-queue
completion, else the previous queue's completion from before this batch;
a stage for which none of these exists yields nothing. -/
def specPriorCompletion (inRenderPass : Bool) (pcb ps qs pqs : SyncTab)
    (s : Stage) : Option Nat :=
  match pcb s with
  | some c => some c
  | none =>
    if inRenderPass then none
    else
      match ps s with
      | some c => some c
      | none =>
        match qs s with
        | some c => some c
        | none => pqs s

/-- The fence id of a `pvrQueueSubmit` outcome. -/
def fenceOf (r : Except SubmitErr (SyncTab × SyncTab × Option Nat)) :
    Option Nat :=
  match r with
  | .ok (_, _, f) => f
  | .error _ => none

/-! ## Concrete scenarios -/

/-- A pristine device: no syncs, no history, no events. -/
def initialWorld : World := ⟨0, 0, ∅, [], [], []⟩

/-- The barrier-merge scenario of the specification: jobs A (compute),
B (compute), C (transfer), then a barrier with src = {compute, transfer}
and dst = {graphics} (geometry and fragment bits), then a graphics job D. -/
def mergeCmds : List SubCmd :=
  [.compute, .compute, .transfer false,
   .event (.barrier (COMPUTE_BIT ||| TRANSFER_BIT) (GEOM_BIT ||| FRAG_BIT) false),
   .graphics false false true]

/-- The barrier-merge scenario run on a fault-free device. -/
def mergeScenario :
    Except SubmitErr (SyncTab × SyncTab) × World :=
  processCmdBuffer allOk mergeCmds emptyTab [] emptyTab emptyTab emptyTab
    initialWorld

/-- Job D of the barrier-merge scenario as it reaches the render context:
its geometry and fragment barriers are the two merged barrier syncs. -/
def mergeJobD : JobRec := ⟨.gfx, [5, 6], [], [7, 8], true⟩

/-- The fence-aggregation scenario: one submission with two command buffers,
each a single compute job, no semaphores, and a fence. -/
def fenceScenario :
    Except SubmitErr (SyncTab × SyncTab × Option Nat) × World :=
  pvrQueueSubmit allOk [⟨[], [[SubCmd.compute], [SubCmd.compute]], 0⟩] true
    emptyTab emptyTab initialWorld

/-- A device with one event object, not yet signalled. -/
def eventWorld : World := ⟨0, 0, ∅, [], [], [⟨none, .resetByDevice⟩]⟩

/-- Event round-trip scenario: `set_event` on event 0, then a `WaitEvents`
sub-command on event 0 with destination stage mask FRAG. -/
def waitScenario : Except SubmitErr (SyncTab × SyncTab) × World :=
  processSubCmds allOk [] emptyTab emptyTab emptyTab
    [.event (.setEvent 0 0), .event (.waitEvents [0] [FRAG_BIT])]
    (emptyTab, emptyTab) eventWorld

/-- Environment where only the fourth fallible operation fails: for a
single-destination barrier this is the `null_job_submit` of the new pending
barrier, inside the loop whose inner `VkResult result` shadows the outer
one. -/
def envBarrierDrop : Env := fun n => n != 3

/-- A device owning sync 5 as the per-command-buffer compute completion. -/
def barrierDropWorld : World := ⟨0, 6, {5}, [], [], []⟩

def barrierDropPcb : SyncTab := Function.update emptyTab computeStage (some 5)

/-- Barrier src = COMPUTE, dst = GEOM on `barrierDropWorld`, failing at the
pending-barrier null-job submission. -/
def barrierDropRun : Except SubmitErr (SyncTab × SyncTab) × World :=
  processEventCmdBarrier envBarrierDrop COMPUTE_BIT GEOM_BIT false
    emptyTab barrierDropPcb emptyTab emptyTab emptyTab barrierDropWorld

/-- Environment where the fifth fallible operation fails: for a two-stage
wait-events command this is the `vk_sync_create` of the second stage's
completion, after the first stage's completion and barrier already exist. -/
def envWaitLeak : Env := fun n => decide (n < 4)

/-- A device with one set event (sync 7). -/
def waitLeakWorld : World := ⟨0, 10, {7}, [], [], [⟨some 7, .setByDevice⟩]⟩

/-- WaitEvents on event 0 with destination stages GEOM and FRAG, failing at
the second destination stage. -/
def waitLeakRun : Except SubmitErr (SyncTab × SyncTab) × World :=
  processEventCmdWait envWaitLeak [0] [GEOM_BIT ||| FRAG_BIT] emptyTab
    emptyTab waitLeakWorld

/-- A device owning syncs 0 (a geometry barrier), 1 (a fragment barrier) and
2 (an external semaphore wait). -/
def splitWorld : World := ⟨0, 3, {0, 1, 2}, [], [], []⟩

/-- A device owning syncs 5 (a pending geometry barrier) and 6 (the
per-command-buffer occlusion-query completion). -/
def occlusionWorld : World := ⟨0, 7, {5, 6}, [], [], []⟩

def occlusionPcb : SyncTab :=
  Function.update emptyTab occlusionQueryStage (some 6)

def occlusionBs : SyncTab := Function.update emptyTab geomStage (some 5)

/-! ## Bookkeeping lemmas -/

@[simp]
theorem syncDestroy_nullJobs (s : Nat) (w : World) :
    (syncDestroy s w).nullJobs = w.nullJobs := rfl

@[simp]
theorem syncDestroy_jobs (s : Nat) (w : World) :
    (syncDestroy s w).jobs = w.jobs := rfl

@[simp]
theorem syncDestroy_nextId (s : Nat) (w : World) :
    (syncDestroy s w).nextId = w.nextId := rfl

@[simp]
theorem destroyIfSome_nullJobs (o : Option Nat) (w : World) :
    (destroyIfSome o w).nullJobs = w.nullJobs := by
  cases o <;> rfl

@[simp]
theorem destroyIfSome_jobs (o : Option Nat) (w : World) :
    (destroyIfSome o w).jobs = w.jobs := by
  cases o <;> rfl

@[simp]
theorem destroyIfSome_nextId (o : Option Nat) (w : World) :
    (destroyIfSome o w).nextId = w.nextId := by
  cases o <;> rfl

theorem destroyTabStages_cons (s : Stage) (rest : List Stage) (t : SyncTab)
    (w : World) :
    destroyTabStages (s :: rest) t w =
      destroyTabStages rest t (destroyIfSome (t s) w) := rfl

@[simp]
theorem destroyTabStages_nullJobs (stages : List Stage) (t : SyncTab) :
    ∀ w : World, (destroyTabStages stages t w).nullJobs = w.nullJobs := by
  induction stages with
  | nil => intro w; rfl
  | cons s rest ih =>
    intro w
    rw [destroyTabStages_cons, ih, destroyIfSome_nullJobs]

@[simp]
theorem destroyTabStages_jobs (stages : List Stage) (t : SyncTab) :
    ∀ w : World, (destroyTabStages stages t w).jobs = w.jobs := by
  induction stages with
  | nil => intro w; rfl
  | cons s rest ih =>
    intro w
    rw [destroyTabStages_cons, ih, destroyIfSome_jobs]

/-- Characterization of the first barrier loop when no device operation
fails: it succeeds, only appends null-job records, and fills every processed
destination stage with a fresh completion whose null job waits on exactly
the collected source list. -/
theorem barrierCompletionsLoop_allOk (srcList : List Nat)
    (cleanup : List Stage) (stages : List Stage) :
    ∀ (comps : SyncTab) (w : World), ∃ (comps' : SyncTab) (w' : World),
      barrierCompletionsLoop allOk srcList cleanup stages comps w =
        (.ok comps', w') ∧
      (∀ x ∈ w.nullJobs, x ∈ w'.nullJobs) ∧
      w'.jobs = w.jobs ∧
      (∀ s, s ∉ stages → comps' s = comps s) ∧
      (∀ s ∈ stages, ∃ c, comps' s = some c ∧ (c, srcList) ∈ w'.nullJobs) := by
  induction stages with
  | nil =>
    intro comps w
    exact ⟨comps, w, rfl, fun x hx => hx, rfl, fun s _ => rfl, fun s hs => absurd hs (by simp)⟩
  | cons s rest ih =>
    intro comps w
    obtain ⟨comps', w', hrun, hmono, hjobs, hout, hin⟩ :=
      ih (Function.update comps s (some w.nextId))
        { w with
          opCount := w.opCount + 2
          nextId := w.nextId + 1
          live := insert w.nextId w.live
          nullJobs := (w.nextId, srcList) :: w.nullJobs }
    refine ⟨comps', w', ?_, ?_, ?_, ?_, ?_⟩
    · simpa [barrierCompletionsLoop, syncCreate, nullJobSubmit, allOk] using hrun
    · intro x hx
      exact hmono x (List.mem_cons_of_mem _ hx)
    · simpa using hjobs
    · intro t ht
      rw [hout t (fun h => ht (List.mem_cons_of_mem _ h))]
      exact Function.update_noteq (fun h => ht (by rw [h]; exact List.mem_cons_self _ _)) _ _
    · intro t ht
      rcases List.mem_cons.mp ht with h | h
      · subst h
        by_cases hr : t ∈ rest
        · exact hin t hr
        · refine ⟨w.nextId, ?_, hmono _ (List.mem_cons_self _ _)⟩
          rw [hout t hr, Function.update_same]
      · exact hin t h

/-- Characterization of the second barrier loop when no device operation
fails: every processed destination stage gets a fresh pending barrier whose
null job waits on that stage's completion merged with the previously pending
barrier, if any. -/
theorem barrierNewBarriersLoop_allOk (bs comps : SyncTab)
    (cleanup : List Stage) (stages : List Stage) :
    ∀ (nbs : SyncTab) (w : World), ∃ (nbs' : SyncTab) (w' : World),
      barrierNewBarriersLoop allOk bs comps cleanup stages nbs w =
        (.ok nbs', w') ∧
      (∀ x ∈ w.nullJobs, x ∈ w'.nullJobs) ∧
      w'.jobs = w.jobs ∧
      (∀ s, s ∉ stages → nbs' s = nbs s) ∧
      (∀ s ∈ stages, ∃ b, nbs' s = some b ∧
        (b, (comps s).toList ++ (bs s).toList) ∈ w'.nullJobs) := by
  induction stages with
  | nil =>
    intro nbs w
    exact ⟨nbs, w, rfl, fun x hx => hx, rfl, fun s _ => rfl, fun s hs => absurd hs (by simp)⟩
  | cons s rest ih =>
    intro nbs w
    obtain ⟨nbs', w', hrun, hmono, hjobs, hout, hin⟩ :=
      ih (Function.update nbs s (some w.nextId))
        { w with
          opCount := w.opCount + 2
          nextId := w.nextId + 1
          live := insert w.nextId w.live
          nullJobs := (w.nextId, (comps s).toList ++ (bs s).toList) :: w.nullJobs }
    refine ⟨nbs', w', ?_, ?_, ?_, ?_, ?_⟩
    · simpa [barrierNewBarriersLoop, syncCreate, nullJobSubmit, allOk] using hrun
    · intro x hx
      exact hmono x (List.mem_cons_of_mem _ hx)
    · simpa using hjobs
    · intro t ht
      rw [hout t (fun h => ht (List.mem_cons_of_mem _ h))]
      exact Function.update_noteq (fun h => ht (by rw [h]; exact List.mem_cons_self _ _)) _ _
    · intro t ht
      rcases List.mem_cons.mp ht with h | h
      · subst h
        by_cases hr : t ∈ rest
        · exact hin t hr
        · refine ⟨w.nextId, ?_, hmono _ (List.mem_cons_self _ _)⟩
          rw [hout t hr, Function.update_same]
      · exact hin t h

/-- The commit loop installs the new completions and barriers on the
processed stages, leaves all other stages alone, and records nothing. -/
theorem commitLoop_spec (comps nbs : SyncTab) (stages : List Stage) :
    ∀ (bs pcb : SyncTab) (w : World),
      (commitLoop stages bs pcb comps nbs w).2.2.nullJobs = w.nullJobs ∧
      (commitLoop stages bs pcb comps nbs w).2.2.jobs = w.jobs ∧
      (∀ s, s ∉ stages →
        (commitLoop stages bs pcb comps nbs w).1 s = bs s ∧
        (commitLoop stages bs pcb comps nbs w).2.1 s = pcb s) ∧
      (∀ s ∈ stages,
        (commitLoop stages bs pcb comps nbs w).1 s = nbs s ∧
        (commitLoop stages bs pcb comps nbs w).2.1 s = comps s) := by
  induction stages with
  | nil =>
    intro bs pcb w
    exact ⟨rfl, rfl, fun s _ => ⟨rfl, rfl⟩, fun s hs => absurd hs (by simp)⟩
  | cons s rest ih =>
    intro bs pcb w
    obtain ⟨hnull, hjobs, hout, hin⟩ :=
      ih (Function.update bs s (nbs s)) (Function.update pcb s (comps s))
        (destroyIfSome (bs s) (destroyIfSome (pcb s) w))
    have hstep :
        commitLoop (s :: rest) bs pcb comps nbs w =
          commitLoop rest (Function.update bs s (nbs s))
            (Function.update pcb s (comps s)) comps nbs
            (destroyIfSome (bs s) (destroyIfSome (pcb s) w)) := rfl
    rw [hstep]
    refine ⟨by simp [hnull], by simp [hjobs], ?_, ?_⟩
    · intro t ht
      have h1 : t ∉ rest := fun h => ht (List.mem_cons_of_mem _ h)
      have h2 : t ≠ s := fun h => ht (h ▸ List.mem_cons_self _ _)
      obtain ⟨hb, hp⟩ := hout t h1
      rw [hb, hp, Function.update_noteq h2, Function.update_noteq h2]
      exact ⟨rfl, rfl⟩
    · intro t ht
      rcases List.mem_cons.mp ht with h | h
      · by_cases hr : t ∈ rest
        · exact hin t hr
        · obtain ⟨hb, hp⟩ := hout t hr
          rw [hb, hp, h, Function.update_same, Function.update_same]
          exact ⟨rfl, rfl⟩
      · exact hin t h

/-- `pvr_process_event_cmd_barrier` on a fault-free device, when the
collected source set is non-empty: it succeeds, and for every destination
stage the committed completion is signalled by a null job fed by the source
set, while the committed pending barrier is signalled by a null job fed by
that completion merged with the previously pending barrier, if any.  Stages
outside the destination mask are untouched. -/
theorem processEventCmdBarrier_allOk (srcMask dstMask : Nat)
    (inRenderPass : Bool) (bs pcb ps qs pqs : SyncTab) (w : World)
    (hsrc : collectSrcSyncobjs inRenderPass pcb ps qs pqs srcMask ≠ []) :
    ∃ (bs' pcb' : SyncTab) (w' : World),
      processEventCmdBarrier allOk srcMask dstMask inRenderPass
        bs pcb ps qs pqs w = (.ok (bs', pcb'), w') ∧
      (∀ x ∈ w.nullJobs, x ∈ w'.nullJobs) ∧
      w'.jobs = w.jobs ∧
      (∀ s, s ∉ stagesOf dstMask → bs' s = bs s ∧ pcb' s = pcb s) ∧
      (∀ s ∈ stagesOf dstMask, ∃ c b, pcb' s = some c ∧ bs' s = some b ∧
        (c, collectSrcSyncobjs inRenderPass pcb ps qs pqs srcMask) ∈ w'.nullJobs ∧
        (b, c :: (bs s).toList) ∈ w'.nullJobs) := by
  obtain ⟨comps, w1, hrun1, hmono1, hjobs1, hout1, hin1⟩ :=
    barrierCompletionsLoop_allOk
      (collectSrcSyncobjs inRenderPass pcb ps qs pqs srcMask)
      (stagesOf dstMask) (stagesOf dstMask) emptyTab w
  obtain ⟨nbs, w2, hrun2, hmono2, hjobs2, hout2, hin2⟩ :=
    barrierNewBarriersLoop_allOk bs comps (stagesOf dstMask)
      (stagesOf dstMask) emptyTab w1
  obtain ⟨hnull3, hjobs3, hout3, hin3⟩ :=
    commitLoop_spec comps nbs (stagesOf dstMask) bs pcb w2
  refine ⟨(commitLoop (stagesOf dstMask) bs pcb comps nbs w2).1,
    (commitLoop (stagesOf dstMask) bs pcb comps nbs w2).2.1,
    (commitLoop (stagesOf dstMask) bs pcb comps nbs w2).2.2, ?_, ?_, ?_, ?_, ?_⟩
  · rw [processEventCmdBarrier]
    rw [List.isEmpty_eq_false_iff_exists_mem.mpr
      (List.exists_mem_of_ne_nil _ hsrc)]
    simp only [Bool.false_eq_true, if_false, hrun1, hrun2]
  · intro x hx
    rw [hnull3]
    exact hmono2 x (hmono1 x hx)
  · rw [hjobs3, hjobs2, hjobs1]
  · exact hout3
  · intro s hs
    obtain ⟨c, hc, hcmem⟩ := hin1 s hs
    obtain ⟨b, hb, hbmem⟩ := hin2 s hs
    obtain ⟨hbs, hpcb⟩ := hin3 s hs
    refine ⟨c, b, ?_, ?_, ?_, ?_⟩
    · rw [hpcb, hc]
    · rw [hbs, hb]
    · rw [hnull3]
      exact hmono2 _ hcmem
    · rw [hnull3]
      have : (comps s).toList ++ (bs s).toList = c :: (bs s).toList := by
        rw [hc]; rfl
      exact this ▸ hbmem

/-- A graphics part submitted with both barriers and both completion
pointers, on a fault-free device: geometry and fragment completion syncs are
created (in that order), the render job is recorded with both barriers and
the shared filtered external waits, and both completion entries are
replaced. -/
theorem partBoth_allOk (g f : Nat) (waits : List (Nat × Nat)) (rf : Bool)
    (pcb : SyncTab) (w : World) :
    ∃ w', processGraphicsCmdPart allOk (some g) (some f) true true waits rf
        pcb w =
      (.ok (Function.update (Function.update pcb geomStage (some w.nextId))
        fragStage (some (w.nextId + 1))), w') ∧
      w'.jobs = w.jobs ++
        [⟨.gfx, [g, f],
          filterWaits waits geomStage ++ filterWaits waits fragStage,
          [w.nextId, w.nextId + 1], rf⟩] ∧
      w'.nullJobs = w.nullJobs ∧
      w'.nextId = w.nextId + 2 := by
  refine ⟨_, rfl, ?_, ?_, ?_⟩ <;> simp

/-- The geometry-only half of a split graphics submission on a fault-free
device: `run_frag = false`, only the geometry barrier is consumed, only the
geometry completion is replaced. -/
theorem partGeomOnly_allOk (g : Nat) (waits : List (Nat × Nat))
    (pcb : SyncTab) (w : World) :
    ∃ w', processGraphicsCmdPart allOk (some g) none true false waits false
        pcb w =
      (.ok (Function.update pcb geomStage (some w.nextId)), w') ∧
      w'.jobs = w.jobs ++
        [⟨.gfx, [g],
          filterWaits waits geomStage ++ filterWaits waits fragStage,
          [w.nextId], false⟩] ∧
      w'.nullJobs = w.nullJobs ∧
      w'.nextId = w.nextId + 1 := by
  refine ⟨_, rfl, ?_, ?_, ?_⟩ <;> simp

/-- The terminating half of a split graphics submission on a fault-free
device: only the fragment barrier is consumed, only the fragment completion
is replaced. -/
theorem partFragOnly_allOk (f : Nat) (waits : List (Nat × Nat)) (rf : Bool)
    (pcb : SyncTab) (w : World) :
    ∃ w', processGraphicsCmdPart allOk none (some f) false true waits rf
        pcb w =
      (.ok (Function.update pcb fragStage (some w.nextId)), w') ∧
      w'.jobs = w.jobs ++
        [⟨.gfx, [f],
          filterWaits waits geomStage ++ filterWaits waits fragStage,
          [w.nextId], rf⟩] ∧
      w'.nullJobs = w.nullJobs ∧
      w'.nextId = w.nextId + 1 := by
  refine ⟨_, rfl, ?_, ?_, ?_⟩ <;> simp

/-! ## Claim theorems -/

theorem srcSyncobjFor_eq_spec (irp : Bool) (pcb ps qs pqs : SyncTab)
    (s : Stage) :
    srcSyncobjFor irp pcb ps qs pqs s = specPriorCompletion irp pcb ps qs pqs s := by
  cases h1 : pcb s <;> cases irp <;>
    cases h2 : ps s <;> cases h3 : qs s <;> cases h4 : pqs s <;>
      simp [srcSyncobjFor, specPriorCompletion, h1, h2, h3, h4]

/-- C2: for every barrier sub-command and every stage in its source mask,
the prior-completion sync collected for that stage follows exactly the
specified precedence chain -- per-command-buffer completion if present,
otherwise (only outside a render pass) per-submission, else per-queue, else
previous-queue completion -- and a stage resolving to nothing contributes
nothing to the collected source set. -/
theorem barrier_source_precedence (irp : Bool) (pcb ps qs pqs : SyncTab)
    (srcMask : Nat) :
    (∀ s : Stage,
      srcSyncobjFor irp pcb ps qs pqs s = specPriorCompletion irp pcb ps qs pqs s) ∧
    collectSrcSyncobjs irp pcb ps qs pqs srcMask =
      (stagesOf srcMask).filterMap (specPriorCompletion irp pcb ps qs pqs) := by
  refine ⟨srcSyncobjFor_eq_spec irp pcb ps qs pqs, ?_⟩
  unfold collectSrcSyncobjs
  congr 1
  funext s
  exact srcSyncobjFor_eq_spec irp pcb ps qs pqs s

/-- C8: a barrier whose source stages resolve to no prior completion at any
scope is a no-op: it returns success, creates no sync primitive, and leaves
the pending-barrier and completion tables and the whole device history
unchanged. -/
theorem empty_source_barrier_noop (env : Env) (srcMask dstMask : Nat)
    (irp : Bool) (bs pcb ps qs pqs : SyncTab) (w : World)
    (h : ∀ s ∈ stagesOf srcMask,
      pcb s = none ∧ ps s = none ∧ qs s = none ∧ pqs s = none) :
    processEventCmdBarrier env srcMask dstMask irp bs pcb ps qs pqs w =
      (.ok (bs, pcb), w) := by
  have hsrc : collectSrcSyncobjs irp pcb ps qs pqs srcMask = [] := by
    unfold collectSrcSyncobjs
    rw [List.filterMap_eq_nil_iff]
    intro s hs
    obtain ⟨h1, h2, h3, h4⟩ := h s hs
    simp [srcSyncobjFor, h1, h2, h3, h4]
  simp [processEventCmdBarrier, hsrc]

/-- Witness for C8 at a concrete input: a compute-source barrier on a
pristine device succeeds and changes nothing. -/
theorem empty_source_barrier_noop_witness :
    (∀ s ∈ stagesOf COMPUTE_BIT,
      emptyTab s = none ∧ emptyTab s = none ∧ emptyTab s = none ∧
        emptyTab s = none) ∧
    processEventCmdBarrier allOk COMPUTE_BIT (GEOM_BIT ||| FRAG_BIT) false
      emptyTab emptyTab emptyTab emptyTab emptyTab initialWorld =
      (.ok (emptyTab, emptyTab), initialWorld) :=
  ⟨by decide,
    empty_source_barrier_noop allOk COMPUTE_BIT (GEOM_BIT ||| FRAG_BIT) false
      emptyTab emptyTab emptyTab emptyTab emptyTab initialWorld (by decide)⟩

/-- C9 counterexample: a wait semaphore carrying a timeline sync does not
produce an UnsupportedSyncFeature-class error return; it trips the driver's
assertion (`assert(!(sync->flags & VK_SYNC_IS_TIMELINE))`, a debug abort)
instead. -/
theorem timeline_wait_counterexample :
    translateWaits [⟨SyncKind.timeline, 3, 1⟩] = .error .assertionFailed ∧
    translateWaits [⟨SyncKind.timeline, 3, 1⟩] ≠ .error .unsupportedSyncFeature := by
  refine ⟨rfl, fun h => ?_⟩
  rw [show translateWaits [⟨SyncKind.timeline, 3, 1⟩] =
    Except.error SubmitErr.assertionFailed from rfl] at h
  exact absurd (Except.error.inj h) (by decide)

/-- C9 (amended): during wait-semaphore translation a dummy/no-op sync is
skipped, a timeline sync makes the call fail fast through an assertion
failure (abort) -- not through an UnsupportedSyncFeature error return -- and
a binary sync is appended to the external wait-set with its stage mask. -/
theorem wait_semaphore_translation (sem : WaitSem) (rest : List WaitSem) :
    (sem.kind = .dummy → translateWaits (sem :: rest) = translateWaits rest) ∧
    (sem.kind = .timeline →
      translateWaits (sem :: rest) = .error .assertionFailed) ∧
    (sem.kind = .binary →
      translateWaits (sem :: rest) =
        (translateWaits rest).map (fun tl => (sem.sync, sem.dstStageMask) :: tl)) := by
  refine ⟨?_, ?_, ?_⟩ <;> intro hk
  · simp [translateWaits, hk]
  · simp [translateWaits, hk]
  · cases h : translateWaits rest <;> simp [translateWaits, hk, h, Except.map]

/-- Witness for C9 at concrete inputs: one semaphore of each kind. -/
theorem wait_semaphore_translation_witness :
    translateWaits [⟨SyncKind.dummy, 0, 0⟩] = translateWaits [] ∧
    translateWaits [⟨SyncKind.timeline, 3, 1⟩] = .error .assertionFailed ∧
    translateWaits [⟨SyncKind.binary, 4, 2⟩] =
      (translateWaits []).map (fun tl => ((4 : Nat), (2 : Nat)) :: tl) :=
  ⟨(wait_semaphore_translation ⟨.dummy, 0, 0⟩ []).1 rfl,
    (wait_semaphore_translation ⟨.timeline, 3, 1⟩ []).2.1 rfl,
    (wait_semaphore_translation ⟨.binary, 4, 2⟩ []).2.2 rfl⟩

theorem submitNullJobLoop_allOk (waits : List (Nat × Nat))
    (stages : List Stage) :
    ∀ (tab : SyncTab) (w : World), ∃ (tab' : SyncTab) (w' : World),
      submitNullJobLoop allOk waits stages tab w = (.ok tab', w') ∧
      (∀ s, s ∉ stages → tab' s = tab s) ∧
      (∀ s ∈ stages,
        ((filterWaits waits s).isEmpty = true → tab' s = tab s) ∧
        ((filterWaits waits s).isEmpty = false → (tab' s).isSome = true)) := by
  induction stages with
  | nil =>
    intro tab w
    exact ⟨tab, w, rfl, fun s _ => rfl, fun s hs => absurd hs (by simp)⟩
  | cons i rest ih =>
    intro tab w
    by_cases hemp : (filterWaits waits i).isEmpty
    · obtain ⟨tab', w', hrun, hout, hin⟩ := ih tab w
      refine ⟨tab', w', ?_, ?_, ?_⟩
      · simpa [submitNullJobLoop, hemp] using hrun
      · intro s hs
        exact hout s (fun h => hs (List.mem_cons_of_mem _ h))
      · intro s hs
        rcases List.mem_cons.mp hs with h | h
        · subst h
          by_cases hr : s ∈ rest
          · exact hin s hr
          · exact ⟨fun _ => hout s hr, fun hne => absurd hemp (by simp [hne])⟩
        · exact hin s h
    · obtain ⟨tab', w', hrun, hout, hin⟩ :=
        ih (Function.update tab i (some w.nextId))
          { w with
            opCount := w.opCount + 2
            nextId := w.nextId + 1
            live := insert w.nextId w.live
            nullJobs := (w.nextId, filterWaits waits i) :: w.nullJobs }
      refine ⟨tab', w', ?_, ?_, ?_⟩
      · simpa [submitNullJobLoop, hemp, syncCreate, nullJobSubmit, allOk]
          using hrun
      · intro s hs
        rw [hout s (fun h => hs (List.mem_cons_of_mem _ h))]
        exact Function.update_noteq
          (fun h => hs (by rw [h]; exact List.mem_cons_self _ _)) _ _
      · intro s hs
        rcases List.mem_cons.mp hs with h | h
        · by_cases hr : s ∈ rest
          · exact ⟨fun he => absurd (by rw [h] at he; exact he) hemp,
              (hin s hr).2⟩
          · refine ⟨fun he => absurd (by rw [h] at he; exact he) hemp,
              fun _ => ?_⟩
            rw [hout s hr, h, Function.update_same]
            rfl
        · obtain ⟨ha, hb⟩ := hin s h
          refine ⟨fun he => ?_, hb⟩
          rw [ha he]
          refine Function.update_noteq (fun hsi => ?_) _ _
          rw [hsi] at he
          exact absurd he hemp

/-- C10: on a fault-free device, the null-job path of a command-buffer-free
submission creates a completion exactly for the job types that have at least
one applicable external wait, and a submission with no waits at all creates
nothing and still succeeds. -/
theorem null_job_submission_completions (waits : List (Nat × Nat)) (w : World) :
    (∃ (tab' : SyncTab) (w' : World),
      submitNullJob allOk waits w = (.ok tab', w') ∧
      ∀ s : Stage, (tab' s).isSome = !(filterWaits waits s).isEmpty) ∧
    (waits = [] → submitNullJob allOk waits w = (.ok emptyTab, w)) := by
  constructor
  · obtain ⟨tab', w', hrun, _, hin⟩ :=
      submitNullJobLoop_allOk waits (List.finRange 5) emptyTab w
    refine ⟨tab', w', hrun, fun s => ?_⟩
    obtain ⟨h1, h2⟩ := hin s (List.mem_finRange s)
    by_cases he : (filterWaits waits s).isEmpty
    · rw [h1 he, he]
      rfl
    · rw [h2 (by simpa using he), Bool.eq_false_iff.mpr he]
      rfl
  · intro h
    subst h
    rfl

/-- Witness for C10 at concrete inputs: one wait applying to COMPUTE only
populates exactly the compute completion; the empty submission is the
identity. -/
theorem null_job_submission_completions_witness :
    (∃ (tab' : SyncTab) (w' : World),
      submitNullJob allOk [(9, COMPUTE_BIT)] initialWorld = (.ok tab', w') ∧
      ∀ s : Stage,
        (tab' s).isSome = !(filterWaits [(9, COMPUTE_BIT)] s).isEmpty) ∧
    submitNullJob allOk [] initialWorld = (.ok emptyTab, initialWorld) :=
  ⟨(null_job_submission_completions [(9, COMPUTE_BIT)] initialWorld).1,
    (null_job_submission_completions [] initialWorld).2 rfl⟩

/-- C5 (code bug): a `WaitEvents` on event 0, issued right after `set_event`
installed sync 0 in that event, with `wait_at_stage_mask = FRAG_BIT`.  The
stage test `wait_at_stage_masks[i] & stage` uses the bit INDEX (`stage = 1`
for FRAG), so `2 & 1 = 0` and the event's sync is dropped: the new
completion's null job waits on the empty set instead of on the event's sync,
contradicting the claim (and the function's own documentation) that the
wait-set includes the sync of every event whose wait applies to the stage.
The recorded history pins the divergence: the only null job signalling the
new completion 1 is `(1, [])` -- its wait list is empty, sync 0 is absent.
The second-null-job half of the claim does hold: `(2, [1])` is the new
barrier fed by the completion alone. -/
theorem wait_events_drops_event_sync :
    waitScenario.1.isOk = true ∧
    eventSyncOf waitScenario.2 0 = some 0 ∧
    waitScenario.2.nullJobs = [(2, [1]), (1, []), (0, [])] ∧
    ((1 : Nat), ([] : List Nat)) ∈ waitScenario.2.nullJobs :=
  ⟨rfl, rfl, rfl, by
    rw [show waitScenario.2.nullJobs = [(2, [1]), (1, []), (0, [])] from rfl]
    simp⟩

/-- C3 (code bug, two failing runs).

First run: barrier src = COMPUTE, dst = GEOM where the null-job submission
for the new pending barrier (the 4th fallible operation) fails.  The
primitives created during the operation are destroyed and the tables are
left untouched, but the call reports SUCCESS: the error was assigned to the
inner `VkResult result` declared inside the second loop, which shadows the
outer variable that `return result` at the end reads.  The claim's "before
the error is returned" is violated -- no error is returned at all.

Second run: wait-events over destination stages GEOM and FRAG where the
`vk_sync_create` of the second stage (the 5th fallible operation) fails.
The error IS returned, but the first stage's completion (10) and barrier
(11), already created and not yet committed anywhere, are left live:
they are leaked, not destroyed. -/
theorem barrier_wait_rollback_bugs :
    (barrierDropRun.1.isOk = true ∧
     barrierDropRun.2.opCount = 4 ∧
     barrierDropRun.2.nullJobs = [(6, [5])] ∧
     barrierDropRun.2.live = {5}) ∧
    (waitLeakRun.1.isOk = false ∧
     waitLeakWorld.live = {7} ∧
     (10 : Nat) ∈ waitLeakRun.2.live ∧
     (11 : Nat) ∈ waitLeakRun.2.live) :=
  ⟨⟨rfl, rfl, rfl, by decide⟩, ⟨rfl, rfl, by decide, by decide⟩⟩

/-- C6: whenever `pvr_set_fence_payload` succeeds, the sync moved into the
fence is signalled by one null job over the present entries of the
completion table handed to it (at the end of `pvr_QueueSubmit` that table is
the full call-level completion table).  Concretely, submitting two command
buffers that each produce a compute completion, with a fence: the fence sync
(2) covers both compute jobs -- it waits the second completion directly and
the first through the compute context's in-order execution -- so it is
satisfied only after both, not after either alone. -/
theorem fence_payload_merges_completions :
    (∀ (env : Env) (tab : SyncTab) (w : World) (f : Nat),
      (setFencePayload env tab w).1 = .ok f →
      (f, tabSomes tab) ∈ (setFencePayload env tab w).2.nullJobs) ∧
    (fenceOf fenceScenario.1 = some 2 ∧
     fenceScenario.2.nullJobs = [(2, [1])] ∧
     fenceScenario.2.jobs =
       [⟨.compute, [], [], [0], true⟩, ⟨.compute, [], [], [1], true⟩] ∧
     Covers fenceScenario.2 2 0 ∧ Covers fenceScenario.2 2 1) := by
  constructor
  · intro env tab w f h
    by_cases h1 : env w.opCount
    · by_cases h2 : env (w.opCount + 1)
      · have hf : f = w.nextId := by
          simp [setFencePayload, syncCreate, nullJobSubmit, h1, h2] at h
          exact h.symm
        subst hf
        simp [setFencePayload, syncCreate, nullJobSubmit, h1, h2]
      · exfalso
        simp [setFencePayload, syncCreate, nullJobSubmit, h1, h2] at h
    · exfalso
      simp [setFencePayload, syncCreate, nullJobSubmit, h1] at h
  · have hjobs : fenceScenario.2.jobs =
        [⟨.compute, [], [], [0], true⟩, ⟨.compute, [], [], [1], true⟩] := rfl
    have hnj : ((2 : Nat), [(1 : Nat)]) ∈ fenceScenario.2.nullJobs := by
      rw [show fenceScenario.2.nullJobs = [(2, [1])] from rfl]
      exact List.mem_singleton.mpr rfl
    have hc1 : Covers fenceScenario.2 1 1 :=
      Covers.signal 1 1 ⟨.compute, [], [], [1], true⟩ (by rw [hjobs]; rfl)
        (by simp)
    have hc0 : Covers fenceScenario.2 1 0 :=
      Covers.fifo 1 1 0 ⟨.compute, [], [], [1], true⟩
        ⟨.compute, [], [], [0], true⟩ (by rw [hjobs]; rfl) (by simp)
        (by rw [hjobs]; rfl) rfl (by decide)
    exact ⟨rfl, rfl, hjobs,
      Covers.nullJob 2 [1] 1 0 hnj (by simp) hc0,
      Covers.nullJob 2 [1] 1 1 hnj (by simp) hc1⟩

/-- Witness for C6 at a concrete input: the fence merge over a table holding
one compute completion produces sync 0 fed by exactly that completion. -/
theorem fence_payload_merges_completions_witness :
    (setFencePayload allOk (Function.update emptyTab computeStage (some 1))
      initialWorld).1 = .ok 0 ∧
    ((0 : Nat), tabSomes (Function.update emptyTab computeStage (some 1))) ∈
      (setFencePayload allOk (Function.update emptyTab computeStage (some 1))
        initialWorld).2.nullJobs :=
  ⟨rfl, fence_payload_merges_completions.1 allOk
    (Function.update emptyTab computeStage (some 1)) initialWorld 0 rfl⟩

/-- C7: a graphics sub-command requiring a split submission, on a fault-free
device, submits two back-to-back render jobs: the first runs with
`run_frag = false`, receives only the geometry barrier as barrier input and
replaces only the geometry completion; the second receives only the fragment
barrier, produces the fragment completion (a sync the first part never
wrote), and its wait-set -- barrier plus the shared external waits -- never
contains the first part's completion. -/
theorem split_graphics_submission (g f : Nat) (waits : List (Nat × Nat))
    (runFrag : Bool) (pcb : SyncTab) (w : World)
    (hf : f < w.nextId) (hw : ∀ p ∈ waits, p.1 < w.nextId) :
    ∃ w',
      processSplitGraphicsCmd allOk (some g) (some f) waits runFrag pcb w =
        (.ok (Function.update (Function.update pcb geomStage (some w.nextId))
          fragStage (some (w.nextId + 1))), w') ∧
      w'.jobs = w.jobs ++
        [⟨.gfx, [g],
          filterWaits waits geomStage ++ filterWaits waits fragStage,
          [w.nextId], false⟩,
         ⟨.gfx, [f],
          filterWaits waits geomStage ++ filterWaits waits fragStage,
          [w.nextId + 1], runFrag⟩] ∧
      (∀ x ∈ f :: (filterWaits waits geomStage ++ filterWaits waits fragStage),
        x ≠ w.nextId) ∧
      w.nextId + 1 ≠ w.nextId := by
  obtain ⟨w1, h1, hj1, _, hid1⟩ := partGeomOnly_allOk g waits pcb w
  obtain ⟨w2, h2, hj2, _, _⟩ :=
    partFragOnly_allOk f waits runFrag
      (Function.update pcb geomStage (some w.nextId)) w1
  refine ⟨w2, ?_, ?_, ?_, by omega⟩
  · simp only [processSplitGraphicsCmd, h1, h2, hid1]
  · rw [hj2, hj1, hid1]
    simp
  · intro x hx
    rcases List.mem_cons.mp hx with rfl | hx2
    · omega
    · rcases List.mem_append.mp hx2 with hxa | hxb
      · obtain ⟨p, hp, hpe⟩ := List.mem_filterMap.mp hxa
        have hpx : p.1 = x := by
          by_cases ht : p.2.testBit geomStage.val
          · simpa [ht] using hpe
          · simp [ht] at hpe
        have := hw p hp
        omega
      · obtain ⟨p, hp, hpe⟩ := List.mem_filterMap.mp hxb
        have hpx : p.1 = x := by
          by_cases ht : p.2.testBit fragStage.val
          · simpa [ht] using hpe
          · simp [ht] at hpe
        have := hw p hp
        omega

/-- Witness for C7 at a concrete input: barriers 0 and 1, one external wait
(sync 2 applying to GEOM and FRAG), on `splitWorld`. -/
theorem split_graphics_submission_witness :
    (1 : Nat) < splitWorld.nextId ∧
    (∀ p ∈ [((2 : Nat), (3 : Nat))], p.1 < splitWorld.nextId) ∧
    (∃ w',
      processSplitGraphicsCmd allOk (some 0) (some 1) [(2, 3)] true emptyTab
        splitWorld =
        (.ok (Function.update (Function.update emptyTab geomStage
          (some splitWorld.nextId)) fragStage (some (splitWorld.nextId + 1))),
          w') ∧
      w'.jobs = splitWorld.jobs ++
        [⟨.gfx, [0],
          filterWaits [(2, 3)] geomStage ++ filterWaits [(2, 3)] fragStage,
          [splitWorld.nextId], false⟩,
         ⟨.gfx, [1],
          filterWaits [(2, 3)] geomStage ++ filterWaits [(2, 3)] fragStage,
          [splitWorld.nextId + 1], true⟩] ∧
      (∀ x ∈ (1 : Nat) ::
          (filterWaits [(2, 3)] geomStage ++ filterWaits [(2, 3)] fragStage),
        x ≠ splitWorld.nextId) ∧
      splitWorld.nextId + 1 ≠ splitWorld.nextId) :=
  ⟨by decide, by decide,
    split_graphics_submission 0 1 [(2, 3)] true emptyTab splitWorld
      (by decide) (by decide)⟩

/-- C4: a graphics sub-command with `has_occlusion_query = true`, on a
fault-free device with an occlusion-query completion `q` on record, applies
an implicit barrier with source OCCLUSION_QUERY and destination FRAG before
the render job is dispatched, with no explicit barrier sub-command
involved: a completion `c` is null-job fed by `[q]`, the new pending
fragment barrier `b` is null-job fed by `c` merged with the previous
fragment barrier, and the render job then receives `b` as its fragment
barrier input.  (`bs geomStage = some g` keeps the render submit clear of
its `assert(geom_barrier || !geom_completion)`.) -/
theorem occlusion_query_implicit_barrier (waits : List (Nat × Nat))
    (ps qs pqs bs pcb : SyncTab) (w : World) (q g : Nat) (rf : Bool)
    (hq : pcb occlusionQueryStage = some q) (hg : bs geomStage = some g) :
    ∃ (bs' pcb' : SyncTab) (w' : World) (c b : Nat) (jr : JobRec),
      processSubCmd allOk waits ps qs pqs (.graphics true false rf)
        (bs, pcb) w = (.ok (bs', pcb'), w') ∧
      (c, [q]) ∈ w'.nullJobs ∧
      (b, c :: (bs fragStage).toList) ∈ w'.nullJobs ∧
      bs' fragStage = some b ∧
      jr ∈ w'.jobs ∧ jr.ctx = .gfx ∧ jr.barriers = [g, b] := by
  have hsrcval :
      collectSrcSyncobjs false pcb ps qs pqs OCCLUSION_QUERY_BIT = [q] := by
    unfold collectSrcSyncobjs
    rw [show stagesOf OCCLUSION_QUERY_BIT = [occlusionQueryStage] from rfl]
    simp [srcSyncobjFor, hq]
  obtain ⟨bs1, pcb1, w1, hrun, _, hjobs1, hout, hin⟩ :=
    processEventCmdBarrier_allOk OCCLUSION_QUERY_BIT FRAG_BIT false
      bs pcb ps qs pqs w (by rw [hsrcval]; simp)
  obtain ⟨c, b, _, hb, hcm, hbm⟩ := hin fragStage (by decide)
  have hbs1g : bs1 geomStage = some g := by
    rw [(hout geomStage (by decide)).1, hg]
  obtain ⟨w2, hpart, hj2, hn2, _⟩ := partBoth_allOk g b waits rf pcb1 w1
  refine ⟨bs1,
    Function.update (Function.update pcb1 geomStage (some w1.nextId))
      fragStage (some (w1.nextId + 1)),
    w2, c, b,
    ⟨.gfx, [g, b],
      filterWaits waits geomStage ++ filterWaits waits fragStage,
      [w1.nextId, w1.nextId + 1], rf⟩,
    ?_, ?_, ?_, ?_, ?_, rfl, rfl⟩
  · rw [show processSubCmd allOk waits ps qs pqs (.graphics true false rf)
        (bs, pcb) w =
        (match processEventCmdBarrier allOk OCCLUSION_QUERY_BIT FRAG_BIT
            false bs pcb ps qs pqs w with
         | (.error e, w1) => (.error e, w1)
         | (.ok (bs1, pcb1), w1) =>
           match processGraphicsCmd allOk false (bs1 geomStage)
               (bs1 fragStage) waits rf pcb1 w1 with
           | (.error e, w2) => (.error e, w2)
           | (.ok pcb2, w2) => (.ok (bs1, pcb2), w2)) from rfl,
      hrun]
    show (match processGraphicsCmd allOk false (bs1 geomStage)
        (bs1 fragStage) waits rf pcb1 w1 with
       | (.error e, w2) =>
         ((.error e, w2) : Except SubmitErr (SyncTab × SyncTab) × World)
       | (.ok pcb2, w2) => (.ok (bs1, pcb2), w2)) = _
    rw [hbs1g, hb,
      show processGraphicsCmd allOk false (some g) (some b) waits rf pcb1 w1 =
        processGraphicsCmdPart allOk (some g) (some b) true true waits rf
          pcb1 w1 from rfl,
      hpart]
  · rw [hn2]
    rw [hsrcval] at hcm
    exact hcm
  · rw [hn2]
    exact hbm
  · exact hb
  · rw [hj2]
    exact List.mem_append_right _ (List.mem_singleton.mpr rfl)

/-- Witness for C4 at a concrete input: occlusion-query completion 6,
pending geometry barrier 5, no external waits. -/
theorem occlusion_query_implicit_barrier_witness :
    occlusionPcb occlusionQueryStage = some 6 ∧
    occlusionBs geomStage = some 5 ∧
    (∃ (bs' pcb' : SyncTab) (w' : World) (c b : Nat) (jr : JobRec),
      processSubCmd allOk [] emptyTab emptyTab emptyTab
        (.graphics true false true) (occlusionBs, occlusionPcb)
        occlusionWorld = (.ok (bs', pcb'), w') ∧
      (c, [(6 : Nat)]) ∈ w'.nullJobs ∧
      (b, c :: (occlusionBs fragStage).toList) ∈ w'.nullJobs ∧
      bs' fragStage = some b ∧
      jr ∈ w'.jobs ∧ jr.ctx = .gfx ∧ jr.barriers = [5, b]) :=
  ⟨by decide, by decide,
    occlusion_query_implicit_barrier [] emptyTab emptyTab emptyTab
      occlusionBs occlusionPcb occlusionWorld 6 5 true (by decide) (by decide)⟩

/-- C1: for every barrier sub-command on a fault-free device whose collected
source set is non-empty, each destination stage's new pending barrier is
produced by a null job fed by the newly created completion together with the
previously pending barrier for that stage, if any; the completion itself is
null-job fed by the collected source set.  Consequently, in the scenario
jobs A (compute, job 0), B (compute, job 1), C (transfer, job 2), barrier
src = {compute, transfer} dst = {graphics}, graphics job D (job 3): D's
effective wait-set transitively covers A, B and C -- its geometry barrier 5
is fed by completion 3, which is fed by B's and C's completions 1 and 2, and
B's completion covers A through the compute context's in-order execution. -/
theorem barrier_merges_pending_barriers :
    (∀ (srcMask dstMask : Nat) (irp : Bool) (bs pcb ps qs pqs : SyncTab)
        (w : World),
      collectSrcSyncobjs irp pcb ps qs pqs srcMask ≠ [] →
      ∃ (bs' pcb' : SyncTab) (w' : World),
        processEventCmdBarrier allOk srcMask dstMask irp bs pcb ps qs pqs w =
          (.ok (bs', pcb'), w') ∧
        ∀ s ∈ stagesOf dstMask, ∃ c b, pcb' s = some c ∧ bs' s = some b ∧
          (c, collectSrcSyncobjs irp pcb ps qs pqs srcMask) ∈ w'.nullJobs ∧
          (b, c :: (bs s).toList) ∈ w'.nullJobs) ∧
    (mergeScenario.1.isOk = true ∧
     mergeScenario.2.jobs =
       [⟨.compute, [], [], [0], true⟩, ⟨.compute, [], [], [1], true⟩,
        ⟨.transfer, [], [], [2], true⟩, mergeJobD] ∧
     mergeScenario.2.nullJobs =
       [(6, [4]), (5, [3]), (4, [1, 2]), (3, [1, 2])] ∧
     waitSetCovers mergeScenario.2 mergeJobD 0 ∧
     waitSetCovers mergeScenario.2 mergeJobD 1 ∧
     waitSetCovers mergeScenario.2 mergeJobD 2) := by
  constructor
  · intro srcMask dstMask irp bs pcb ps qs pqs w hsrc
    obtain ⟨bs', pcb', w', hrun, _, _, _, hin⟩ :=
      processEventCmdBarrier_allOk srcMask dstMask irp bs pcb ps qs pqs w hsrc
    exact ⟨bs', pcb', w', hrun, hin⟩
  · have hjobs : mergeScenario.2.jobs =
        [⟨.compute, [], [], [0], true⟩, ⟨.compute, [], [], [1], true⟩,
         ⟨.transfer, [], [], [2], true⟩, mergeJobD] := rfl
    have hnj : mergeScenario.2.nullJobs =
        [(6, [4]), (5, [3]), (4, [1, 2]), (3, [1, 2])] := rfl
    have hn5 : ((5 : Nat), [(3 : Nat)]) ∈ mergeScenario.2.nullJobs := by
      rw [hnj]; simp
    have hn3 : ((3 : Nat), [(1 : Nat), 2]) ∈ mergeScenario.2.nullJobs := by
      rw [hnj]; simp
    have hcovB : Covers mergeScenario.2 1 1 :=
      Covers.signal 1 1 ⟨.compute, [], [], [1], true⟩ (by rw [hjobs]; rfl)
        (by simp)
    have hcovA : Covers mergeScenario.2 1 0 :=
      Covers.fifo 1 1 0 ⟨.compute, [], [], [1], true⟩
        ⟨.compute, [], [], [0], true⟩ (by rw [hjobs]; rfl) (by simp)
        (by rw [hjobs]; rfl) rfl (by decide)
    have hcovC : Covers mergeScenario.2 2 2 :=
      Covers.signal 2 2 ⟨.transfer, [], [], [2], true⟩ (by rw [hjobs]; rfl)
        (by simp)
    have h3A : Covers mergeScenario.2 3 0 :=
      Covers.nullJob 3 [1, 2] 1 0 hn3 (by simp) hcovA
    have h3B : Covers mergeScenario.2 3 1 :=
      Covers.nullJob 3 [1, 2] 1 1 hn3 (by simp) hcovB
    have h3C : Covers mergeScenario.2 3 2 :=
      Covers.nullJob 3 [1, 2] 2 2 hn3 (by simp) hcovC
    refine ⟨rfl, hjobs, hnj, ?_, ?_, ?_⟩
    · exact ⟨5, by decide, Covers.nullJob 5 [3] 3 0 hn5 (by simp) h3A⟩
    · exact ⟨5, by decide, Covers.nullJob 5 [3] 3 1 hn5 (by simp) h3B⟩
    · exact ⟨5, by decide, Covers.nullJob 5 [3] 3 2 hn5 (by simp) h3C⟩

/-- Witness for C1's general half at a concrete input: barrier src = COMPUTE
(completion 5 on record), dst = GEOM, on `barrierDropWorld` with no faults. -/
theorem barrier_merges_pending_barriers_witness :
    collectSrcSyncobjs false barrierDropPcb emptyTab emptyTab emptyTab
      COMPUTE_BIT ≠ [] ∧
    (∃ (bs' pcb' : SyncTab) (w' : World),
      processEventCmdBarrier allOk COMPUTE_BIT GEOM_BIT false emptyTab
        barrierDropPcb emptyTab emptyTab emptyTab barrierDropWorld =
        (.ok (bs', pcb'), w') ∧
      ∀ s ∈ stagesOf GEOM_BIT, ∃ c b, pcb' s = some c ∧ bs' s = some b ∧
        (c, collectSrcSyncobjs false barrierDropPcb emptyTab emptyTab
          emptyTab COMPUTE_BIT) ∈ w'.nullJobs ∧
        (b, c :: (emptyTab s).toList) ∈ w'.nullJobs) :=
  ⟨by decide,
    barrier_merges_pending_barriers.1 COMPUTE_BIT GEOM_BIT false emptyTab
      barrierDropPcb emptyTab emptyTab emptyTab barrierDropWorld (by decide)⟩

end PvrQueue
